import Mathlib

/-!
Verification of the smart-pool-controller firmware (src/firmware/src/main.cpp and
src/firmware/src/ble_provisioning.cpp) against its natural-language specification.

The firmware is shallowly embedded: the mutable globals of main.cpp become the
fields of explicit state structures, every side effect (MQTT publish, relay
write, delay, disconnect, restart) becomes an element of an event trace, and the
Arduino String operations used by the hand-rolled command parser are given
faithful executable counterparts over Lean strings (one char per byte, which is
exact for the ASCII payloads the firmware handles).
-/

namespace PoolCtl

/-! ## Arduino string primitives

These mirror the Arduino `String` member functions used by the firmware:
`trim` (both-ends whitespace strip), `toUpperCase` (ASCII), `indexOf`
(substring search, -1 when absent), `substring` (argument-swapping, clamping),
`toInt` (C `atol`), plus `strncpy`-style truncation.
-/

/-- C `isspace` on the ASCII range, as used by Arduino `String::trim`. -/
def isSpaceChar (c : Char) : Bool :=
  c = ' ' || c = '\t' || c = '\n' || c = '\x0b' || c = '\x0c' || c = '\r'

/-- Arduino `String::trim`: strip leading and trailing whitespace. -/
def trimChars (l : List Char) : List Char :=
  ((l.dropWhile isSpaceChar).reverse.dropWhile isSpaceChar).reverse

/-- String wrapper for `trimChars`. -/
def trimStr (s : String) : String := ⟨trimChars s.data⟩

/-- C `toupper` on ASCII as applied per char by `String::toUpperCase`. -/
def upperChar (c : Char) : Char :=
  if 97 ≤ c.toNat ∧ c.toNat ≤ 122 then Char.ofNat (c.toNat - 32) else c

/-- Arduino `String::toUpperCase`. -/
def upperStr (s : String) : String := ⟨s.data.map upperChar⟩

/-- `strncpy` into a fixed buffer with forced NUL terminator: keep the first
`n` bytes. Used by `loadWiFiCredentials` and the BLE credential getters. -/
def strTake (s : String) (n : Nat) : String := ⟨s.data.take n⟩

/-- First index at which `needle` occurs in the list, if any. -/
def listFind (needle : List Char) : List Char → Option Nat
  | [] => if needle = [] then some 0 else none
  | c :: t => if needle.isPrefixOf (c :: t) then some 0 else (listFind needle t).map (· + 1)

/-- Arduino `String::indexOf(needle, from)`: -1 when absent. -/
def strIndexOfFrom (s needle : String) (start : Nat) : Int :=
  match listFind needle.data (s.data.drop start) with
  | some i => ((i + start : Nat) : Int)
  | none => -1

/-- Arduino `String::indexOf(needle)`. -/
def strIndexOf (s needle : String) : Int := strIndexOfFrom s needle 0

/-- Arduino `String::substring(left, right)`: swaps out-of-order arguments,
clamps to the string length, returns the chars in `[left, right)`. -/
def strSubstring (s : String) (left right : Nat) : String :=
  let lr := if left > right then (right, left) else (left, right)
  ⟨(s.data.take lr.2).drop lr.1⟩

/-- Accumulate leading decimal digits, stopping at the first non-digit
(the digit-consuming loop of C `atol`). -/
def digitsToNat (acc : Nat) : List Char → Nat
  | [] => acc
  | c :: t => if c.isDigit then digitsToNat (acc * 10 + (c.toNat - 48)) t else acc

/-- Arduino `String::toInt` = C `atol`: skip whitespace, optional sign,
leading digits; 0 when no digits. -/
def atol (s : String) : Int :=
  match s.data.dropWhile isSpaceChar with
  | '-' :: t => -(digitsToNat 0 t : Int)
  | '+' :: t => (digitsToNat 0 t : Int)
  | l => (digitsToNat 0 l : Int)

/-- C conversion of a signed value to `uint32_t`. -/
def u32ofInt (i : Int) : Nat := (i % 4294967296).toNat

/-- `uint32_t` subtraction `a - b` (wrapping), as in `millis()` deltas. -/
def sub32 (a b : Nat) : Nat := (a % 4294967296 + 4294967296 - b % 4294967296) % 4294967296

/-- Decimal digit characters of `n`, most significant first (fuel-driven so it
reduces in the kernel); mirrors Arduino `String(n)`. -/
def natDecimalAux : Nat → Nat → List Char
  | 0, _ => []
  | fuel + 1, n =>
    if n < 10 then [Char.ofNat (48 + n)]
    else natDecimalAux fuel (n / 10) ++ [Char.ofNat (48 + n % 10)]

/-- Decimal digits of a natural number. -/
def natDecimal (n : Nat) : List Char := natDecimalAux (n + 1) n

/-- Decimal rendering of a natural number, as Arduino `String(uint32_t)`. -/
def natRepr (n : Nat) : String := ⟨natDecimal n⟩

/-- Decimal rendering of a signed value, as Arduino `String(int)`. -/
def intDecimal (i : Int) : List Char :=
  if i < 0 then '-' :: natDecimal i.natAbs else natDecimal i.natAbs

/-! ## MQTT topics (config.h) -/

def DEVICE_ID : String := "esp32-pool-01"
def TOPIC_PUMP_SET : String := "devices/" ++ DEVICE_ID ++ "/pump/set"
def TOPIC_PUMP_STATE : String := "devices/" ++ DEVICE_ID ++ "/pump/state"
def TOPIC_VALVE_SET : String := "devices/" ++ DEVICE_ID ++ "/valve/set"
def TOPIC_VALVE_STATE : String := "devices/" ++ DEVICE_ID ++ "/valve/state"
def TOPIC_WIFI_STATE : String := "devices/" ++ DEVICE_ID ++ "/wifi/state"
def TOPIC_WIFI_CLEAR : String := "devices/" ++ DEVICE_ID ++ "/wifi/clear"
def TOPIC_TIMER_SET : String := "devices/" ++ DEVICE_ID ++ "/timer/set"
def TOPIC_TIMER_STATE : String := "devices/" ++ DEVICE_ID ++ "/timer/state"

/-! ## Equipment and timer state (main.cpp globals) -/

/-- The mutable globals of main.cpp that the pump/valve/timer logic reads and
writes: `pumpState`, `valveMode`, `timerActive`, `timerMode`, `timerDuration`,
`timerRemaining`, `timerLastUpdate`, and the `static uint32_t lastPublish`
local to `updateTimer`. -/
structure PoolState where
  pumpState : Bool
  valveMode : Nat
  timerActive : Bool
  timerMode : Nat
  timerDuration : Nat
  timerRemaining : Nat
  timerLastUpdate : Nat
  lastPublish : Nat
  deriving DecidableEq

/-- Observable side effects of the firmware, in program order. -/
inductive Ev where
  | pub (topic payload : String) (retain : Bool)
  | pumpRelayWrite (energized : Bool)
  | valveRelayWrite (high : Bool)
  | delayMs (n : Nat)
  | mqttDisconnect
  | wifiDisconnectErase
  | nvsClear
  | espRestart
  deriving DecidableEq

/-- State after `setup()`: relays off, valve mode 1, idle timer. -/
def initState : PoolState :=
  { pumpState := false, valveMode := 1, timerActive := false, timerMode := 1
    timerDuration := 0, timerRemaining := 0, timerLastUpdate := 0, lastPublish := 0 }

/-- Payload of `publishValveState`: the single char `'0' + valveMode`. -/
def valvePayload (m : Nat) : String := ⟨[Char.ofNat ((48 + m) % 256)]⟩

/-- `publishPumpState`. -/
def publishPumpState (s : PoolState) : List Ev :=
  [Ev.pub TOPIC_PUMP_STATE (if s.pumpState then "ON" else "OFF") true]

/-- `publishValveState`. -/
def publishValveState (s : PoolState) : List Ev :=
  [Ev.pub TOPIC_VALVE_STATE (valvePayload s.valveMode) true]

/-- JSON payload built by `publishTimerState`. -/
def timerJson (active : Bool) (remaining mode duration : Nat) : String :=
  "\x7b\"active\":" ++ (if active then "true" else "false") ++
    ",\"remaining\":" ++ natRepr remaining ++ ",\"mode\":" ++ natRepr mode ++
    ",\"duration\":" ++ natRepr duration ++ "\x7d"

/-- `publishTimerState`. -/
def publishTimerState (s : PoolState) : List Ev :=
  [Ev.pub TOPIC_TIMER_STATE
    (timerJson s.timerActive s.timerRemaining s.timerMode s.timerDuration) true]

/-- `setPumpRelay`: digitalWrite the pump relay and record the logical state. -/
def setPumpRelay (s : PoolState) (targetState : Bool) : PoolState × List Ev :=
  ({ s with pumpState := targetState }, [Ev.pumpRelayWrite targetState])

/-- `setValveRelay`: rejects modes outside \x7b1,2\x7d, otherwise drives the valve
relay pin (HIGH for mode 2) and records the mode. -/
def setValveRelay (s : PoolState) (targetMode : Int) : PoolState × List Ev :=
  if ¬(targetMode = 1 ∨ targetMode = 2) then (s, [])
  else ({ s with valveMode := targetMode.toNat }, [Ev.valveRelayWrite (targetMode = 2)])

/-- `setPumpState`: relay write followed by a pump-state publish. -/
def setPumpState (s : PoolState) (targetState : Bool) : PoolState × List Ev :=
  let r := setPumpRelay s targetState
  (r.1, r.2 ++ publishPumpState r.1)

/-- `setValveMode`: validates the mode, skips the relay pulse when already in
the target mode, and publishes the valve state in every accepted case. -/
def setValveMode (s : PoolState) (targetMode : Int) : PoolState × List Ev :=
  if ¬(targetMode = 1 ∨ targetMode = 2) then (s, [])
  else if (s.valveMode : Int) = targetMode then (s, publishValveState s)
  else
    let r := setValveRelay s targetMode
    (r.1, r.2 ++ publishValveState r.1)

/-- `startTimer`: validate mode and duration, configure the timer fields,
set the valve, wait the settle delay, energize the pump, publish the state. -/
def startTimer (s : PoolState) (mode : Int) (durationSeconds : Nat) (now : Nat) :
    PoolState × List Ev :=
  if ¬(mode = 1 ∨ mode = 2) then (s, [])
  else if durationSeconds = 0 then (s, [])
  else
    let s1 := { s with timerActive := true, timerMode := mode.toNat
                       timerDuration := durationSeconds, timerRemaining := durationSeconds
                       timerLastUpdate := now }
    let rv := setValveMode s1 mode
    let rp := setPumpState rv.1 true
    (rp.1, rv.2 ++ [Ev.delayMs 500] ++ rp.2 ++ publishTimerState rp.1)

/-- `stopTimer`: no-op when already inactive; otherwise deactivate, zero the
remaining time, turn the pump off and publish the timer state. -/
def stopTimer (s : PoolState) : PoolState × List Ev :=
  if ¬s.timerActive then (s, [])
  else
    let s1 := { s with timerActive := false, timerRemaining := 0 }
    let rp := setPumpState s1 false
    (rp.1, rp.2 ++ publishTimerState rp.1)

/-- `updateTimer`: the per-loop countdown tick driven by `millis()`. -/
def updateTimer (s : PoolState) (now : Nat) : PoolState × List Ev :=
  if ¬s.timerActive then (s, [])
  else
    let elapsed := sub32 now s.timerLastUpdate / 1000
    if 1 ≤ elapsed then
      let s1 := { s with timerLastUpdate := now }
      if 0 < s1.timerRemaining then
        let s2 := { s1 with timerRemaining := s1.timerRemaining - 1 }
        if s2.timerRemaining % 10 = 0 ∨ s2.timerRemaining ≤ 10 ∨
            10000 < sub32 now s2.lastPublish then
          let s3 := { s2 with lastPublish := now }
          (s3, publishTimerState s3)
        else (s2, [])
      else stopTimer s1
    else (s, [])

/-- The hand-rolled JSON field extraction of the timer branch of
`onMqttMessage`: locate the lowercase `"mode":` and `"duration":` keys in the
(already uppercased) message, none when either is missing, else the two
`toInt` values with the duration converted to `uint32_t`. -/
def parseTimerCommand (msg : String) : Option (Int × Nat) :=
  let modeIdx := strIndexOf msg "\"mode\":"
  let durationIdx := strIndexOf msg "\"duration\":"
  if modeIdx = -1 ∨ durationIdx = -1 then none
  else
    let modeStart := strIndexOfFrom msg ":" (u32ofInt modeIdx) + 1
    let modeEnd0 := strIndexOfFrom msg "," (u32ofInt modeStart)
    let modeEnd := if modeEnd0 = -1 then strIndexOfFrom msg "\x7d" (u32ofInt modeStart)
      else modeEnd0
    let modeStr := trimStr (strSubstring msg (u32ofInt modeStart) (u32ofInt modeEnd))
    let mode := atol modeStr
    let durationStart := strIndexOfFrom msg ":" (u32ofInt durationIdx) + 1
    let durationEnd0 := strIndexOfFrom msg "\x7d" (u32ofInt durationStart)
    let durationEnd := if durationEnd0 = -1 then (msg.length : Int) else durationEnd0
    let durationStr :=
      trimStr (strSubstring msg (u32ofInt durationStart) (u32ofInt durationEnd))
    let duration := u32ofInt (atol durationStr)
    some (mode, duration)

/-- `onMqttMessage`: trim and uppercase the payload, then dispatch on the
topic — pump commands, valve commands, the hand-parsed timer JSON (dropped
when the keys are missing, stop on duration 0, start otherwise), and the
wifi-clear hard reset. -/
def onMqttMessage (s : PoolState) (topic payload : String) (now : Nat) :
    PoolState × List Ev :=
  let msg := upperStr (trimStr payload)
  if topic = TOPIC_PUMP_SET then
    if msg = "ON" ∨ msg = "1" then setPumpState s true
    else if msg = "OFF" ∨ msg = "0" then setPumpState s false
    else if msg = "TOGGLE" then setPumpState s (!s.pumpState)
    else (s, [])
  else if topic = TOPIC_VALVE_SET then
    if msg = "1" then setValveMode s 1
    else if msg = "2" then setValveMode s 2
    else if msg = "TOGGLE" then setValveMode s (if s.valveMode = 1 then 2 else 1)
    else (s, [])
  else if topic = TOPIC_TIMER_SET then
    match parseTimerCommand msg with
    | none => (s, [])
    | some md =>
      if md.2 = 0 then stopTimer s
      else startTimer s md.1 md.2 now
  else if topic = TOPIC_WIFI_CLEAR then
    (s, [Ev.pub TOPIC_WIFI_STATE "\x7b\"status\":\"disconnected\"\x7d" true,
         Ev.delayMs 100, Ev.mqttDisconnect, Ev.wifiDisconnectErase, Ev.nvsClear,
         Ev.delayMs 2000, Ev.espRestart])
  else (s, [])

/-- Apply `updateTimer` at 1-second wall-clock intervals `t0+1000, …, t0+1000*k`,
collecting the event trace — the "tick advanced by k seconds" of the spec. -/
def runTicks (s : PoolState) (t0 : Nat) : Nat → PoolState × List Ev
  | 0 => (s, [])
  | k + 1 =>
    let r := runTicks s t0 k
    let r2 := updateTimer r.1 (t0 + 1000 * (k + 1))
    (r2.1, r.2 ++ r2.2)

/-- The observable equipment/timer state (excludes the internal clock fields
`timerLastUpdate` and `lastPublish`). -/
def obs (s : PoolState) : Bool × Nat × Bool × Nat × Nat × Nat :=
  (s.pumpState, s.valveMode, s.timerActive, s.timerMode, s.timerDuration, s.timerRemaining)

/-- Number of stop-triggered timer snapshots (payload `active:false, remaining:0`
with the given mode and duration) in a trace. -/
def termSnapCount (m d : Nat) (evs : List Ev) : Nat :=
  evs.countP (fun e => decide (e = Ev.pub TOPIC_TIMER_STATE (timerJson false 0 m d) true))

/-! ## Credential store (NVS `Preferences`, namespace "wifi") -/

/-- The persisted key-value pairs of the "wifi" NVS namespace: the "ssid" and
"password" string fields, each possibly absent. -/
structure NVS where
  ssid : Option String
  password : Option String
  deriving DecidableEq

/-- `Preferences::getString(key, dflt)`: the stored value or the default. -/
def prefsGetString (v : Option String) (dflt : String) : String := v.getD dflt

/-- `saveWiFiCredentials`: store both strings. -/
def saveWiFiCredentials (nv : NVS) (ssid password : String) : NVS :=
  { nv with ssid := some ssid, password := some password }

/-- `clearWiFiCredentials`: `preferences.clear()` wipes the namespace. -/
def clearWiFiCredentials (_nv : NVS) : NVS := { ssid := none, password := none }

/-- `loadWiFiCredentials`: none when the stored SSID is empty/absent, otherwise
the stored pair truncated by `strncpy` to 32 / 63 bytes. -/
def loadWiFiCredentials (nv : NVS) : Option (String × String) :=
  let savedSSID := prefsGetString nv.ssid ""
  let savedPassword := prefsGetString nv.password ""
  if savedSSID.length = 0 then none
  else some (strTake savedSSID 32, strTake savedPassword 63)

/-! ## BLE provisioning session (ble_provisioning.cpp state) -/

/-- The module-level state of ble_provisioning.cpp relevant to credential
consumption: `bleActive`, `newCredentialsReceived`, `receivedSSID`,
`receivedPassword`. -/
structure BLEState where
  bleActive : Bool
  newCredentialsReceived : Bool
  receivedSSID : String
  receivedPassword : String
  deriving DecidableEq

/-- `initBLEProvisioning` (the part visible to the core: the service is up). -/
def initBLEProvisioning (b : BLEState) : BLEState := { b with bleActive := true }

/-- `stopBLEProvisioning`: early return when not active. -/
def stopBLEProvisioning (b : BLEState) : BLEState :=
  if ¬b.bleActive then b else { b with bleActive := false }

/-- `hasNewWiFiCredentials`. -/
def hasNewWiFiCredentials (b : BLEState) : Bool := b.newCredentialsReceived

/-- `getBLEWiFiSSID`: false on empty, else the first 32 bytes. -/
def getBLEWiFiSSID (b : BLEState) : Option String :=
  if b.receivedSSID.length = 0 then none else some (strTake b.receivedSSID 32)

/-- `getBLEWiFiPassword`: false on empty, else the first 63 bytes. -/
def getBLEWiFiPassword (b : BLEState) : Option String :=
  if b.receivedPassword.length = 0 then none else some (strTake b.receivedPassword 63)

/-- `clearBLECredentials`. -/
def clearBLECredentials (b : BLEState) : BLEState :=
  { b with newCredentialsReceived := false, receivedSSID := "", receivedPassword := "" }

/-! ## WiFi connection (connectWiFi) and the loop's credential consumption -/

/-- Connectivity plus persistence state threaded through `connectWiFi` and the
BLE branch of `loop()`. The environment `attemptOk` says whether the n-th
sequential `WiFi.begin`/wait attempt reaches `WL_CONNECTED`. -/
structure SysState where
  nvs : NVS
  ble : BLEState
  wifiConnected : Bool
  wifiProvisioned : Bool
  deriving DecidableEq

/-- Whether any of attempts `1..retryAttempts` succeeds (the retry loop of
`connectWiFi` returns at the first success). -/
def connectWiFiAttempts (attemptOk : Nat → Bool) (retryAttempts : Nat) : Bool :=
  (List.range retryAttempts).any fun i => attemptOk (i + 1)

/-- `connectWiFi(ssid, password, retryAttempts)`: bounded sequential attempts;
on success sets `wifiProvisioned`. It never touches NVS. -/
def connectWiFi (attemptOk : Nat → Bool) (retryAttempts : Nat) (s : SysState) :
    Bool × SysState :=
  if connectWiFiAttempts attemptOk retryAttempts then
    (true, { s with wifiConnected := true, wifiProvisioned := true })
  else (false, { s with wifiConnected := false })

/-- The BLE credential-consumption branch of `loop()` (main.cpp): when fresh
credentials are present, stop BLE, try `connectWiFi` with the default 3
attempts; on success persist and clear the pending pair; on failure clear the
pending pair only and restart BLE provisioning. -/
def bleLoopStep (attemptOk : Nat → Bool) (s : SysState) : SysState :=
  if s.ble.bleActive then
    if hasNewWiFiCredentials s.ble then
      match getBLEWiFiSSID s.ble, getBLEWiFiPassword s.ble with
      | some ssid, some password =>
        let s1 := { s with ble := stopBLEProvisioning s.ble }
        let r := connectWiFi attemptOk 3 s1
        if r.1 then
          { r.2 with nvs := saveWiFiCredentials r.2.nvs ssid password
                     ble := clearBLECredentials r.2.ble }
        else { r.2 with ble := initBLEProvisioning (clearBLECredentials r.2.ble) }
      | _, _ => s
    else s
  else s

/-! ## WiFi scan listing (scanWiFiNetworks, ble_provisioning.cpp) -/

/-- One scanned network: SSID, RSSI, open flag. -/
structure Net where
  ssid : String
  rssi : Int
  isOpen : Bool
  deriving DecidableEq

/-- The serialized form of one network entry, exactly as built by
`scanWiFiNetworks`. -/
def netEntryChars (n : Net) : List Char :=
  "\x7b\"ssid\":\"".data ++ n.ssid.data ++ "\",\"rssi\":".data ++ intDecimal n.rssi ++
    ",\"open\":".data ++ (if n.isOpen then "true".data else "false".data) ++ "\x7d".data

/-- The entry-accumulating loop of `scanWiFiNetworks`: skip empty SSIDs, stop
(`break`) once the projected serialized size would exceed 400 bytes. -/
def scanLoop : List Net → List Char → Nat → List Char × Nat
  | [], json, cnt => (json, cnt)
  | n :: rest, json, cnt =>
    if n.ssid.length = 0 then scanLoop rest json cnt
    else
      let entry := netEntryChars n
      let projected := json.length + entry.length + (if 0 < cnt then 1 else 0) + 1
      if 400 < projected then (json, cnt)
      else scanLoop rest (json ++ (if 0 < cnt then [','] else []) ++ entry) (cnt + 1)

/-- `scanWiFiNetworks` applied to a scan result list. -/
def scanWiFiNetworks (nets : List Net) : String :=
  if nets.length = 0 then "[]"
  else ⟨(scanLoop nets ['['] 0).1 ++ [']']⟩

/-- Entries joined by commas (the serialization shape the loop builds). -/
def joinEntries : List Net → List Char
  | [] => []
  | [n] => netEntryChars n
  | n :: rest => netEntryChars n ++ ',' :: joinEntries rest

/-- The full (budget-free) serialized form of a scan list: every non-empty-name
entry, comma separated, in brackets. -/
def fullSerial (nets : List Net) : List Char :=
  '[' :: joinEntries (nets.filter fun n => n.ssid.length ≠ 0) ++ [']']

/-! ## A recognizer for the scan listing grammar

`parseNets` parses exactly the JSON shape `scanWiFiNetworks` is meant to emit:
`[` entry (`,` entry)* `]` with entry `\x7b"ssid":"…","rssi":<int>,"open":<bool>\x7d`,
string contents being any characters other than `"` (the firmware emits no
escapes). A scan result is well-formed iff this parser accepts it. -/

/-- Consume an expected literal prefix. -/
def expectChars (pre l : List Char) : Option (List Char) :=
  if pre.isPrefixOf l then some (l.drop pre.length) else none

/-- Parse one or more decimal digits. -/
def parseNatChars (l : List Char) : Option (Nat × List Char) :=
  let ds := l.takeWhile fun c => c.isDigit
  if ds = [] then none else some (digitsToNat 0 ds, l.dropWhile fun c => c.isDigit)

/-- Parse an optionally negated decimal integer. -/
def parseIntChars (l : List Char) : Option (Int × List Char) :=
  match l with
  | [] => none
  | c :: t =>
    if c = '-' then (parseNatChars t).map fun r => (-(r.1 : Int), r.2)
    else (parseNatChars (c :: t)).map fun r => ((r.1 : Int), r.2)

/-- Parse a JSON boolean. -/
def parseBoolChars (l : List Char) : Option (Bool × List Char) :=
  if "true".data.isPrefixOf l then some (true, l.drop 4)
  else if "false".data.isPrefixOf l then some (false, l.drop 5)
  else none

/-- A character other than the string-closing double quote. -/
def notQuote (c : Char) : Bool := c ≠ '"'

/-- Parse one network entry object. -/
def parseEntry (l : List Char) : Option (Net × List Char) := do
  let l ← expectChars "\x7b\"ssid\":\"".data l
  let name := l.takeWhile notQuote
  let l := l.dropWhile notQuote
  let l ← expectChars "\",\"rssi\":".data l
  let (r, l) ← parseIntChars l
  let l ← expectChars ",\"open\":".data l
  let (b, l) ← parseBoolChars l
  let l ← expectChars "\x7d".data l
  some (⟨⟨name⟩, r, b⟩, l)

/-- Parse `,entry` repetitions terminated by `]` (fuel-driven). -/
def parseRest (fuel : Nat) (l : List Char) : Option (List Net × List Char) :=
  match fuel with
  | 0 => none
  | fuel + 1 =>
    match l with
    | [] => none
    | c :: r =>
      if c = ']' then some ([], r)
      else if c = ',' then do
        let (e, r2) ← parseEntry r
        let (es, r3) ← parseRest fuel r2
        some (e :: es, r3)
      else none

/-- Parse a complete scan listing; `some` exactly on well-formed output. -/
def parseNets (s : String) : Option (List Net) :=
  match s.data with
  | [] => none
  | c :: r =>
    if c = '[' then
      if r = [']'] then some []
      else do
        let (e, r2) ← parseEntry r
        let (es, r3) ← parseRest s.length r2
        if r3 = [] then some (e :: es) else none
    else none

/-! ## Reachable equipment states

Every write to the equipment/timer globals in the firmware happens inside
`onMqttMessage` (command dispatch) or `updateTimer` (the loop tick), starting
from the `setup()` state. -/

/-- States reachable by any sequence of MQTT commands and timer ticks. -/
inductive Reachable : PoolState → Prop where
  | init : Reachable initState
  | msg (s : PoolState) (topic payload : String) (now : Nat) :
      Reachable s → Reachable (onMqttMessage s topic payload now).1
  | tick (s : PoolState) (now : Nat) :
      Reachable s → Reachable (updateTimer s now).1

/-! ## Helper lemmas -/

/-- `strncpy` truncation is the identity within the buffer bound. -/
lemma strTake_of_le (s : String) (n : Nat) (h : s.length ≤ n) : strTake s n = s := by
  unfold strTake
  rw [List.take_of_length_le h]

/-- Wrapping `uint32` subtraction agrees with `Nat` subtraction absent overflow. -/
lemma sub32_eq (a b : Nat) (hba : b ≤ a) (ha : a < 4294967296) : sub32 a b = a - b := by
  have hb : b < 4294967296 := lt_of_le_of_lt hba ha
  unfold sub32
  rw [Nat.mod_eq_of_lt ha, Nat.mod_eq_of_lt hb]
  rw [show a + 4294967296 - b = a - b + 4294967296 by omega]
  rw [Nat.add_mod_right]
  exact Nat.mod_eq_of_lt (by omega)

/-- A running-state timer snapshot is never equal to a stopped-state one: the
payloads differ at the `active` field. -/
lemma timerJson_true_ne_false (r m d r' m' d' : Nat) :
    timerJson true r m d ≠ timerJson false r' m' d' := by
  intro h
  have h2 := congrArg String.data h
  simp only [timerJson, if_pos, if_neg, String.data_append, List.append_assoc] at h2
  rw [show (if (false : Bool) = true then ("true" : String) else "false") = "false" from rfl]
    at h2
  rw [show ("false" : String).data = ['f', 'a', 'l', 's', 'e'] from rfl] at h2
  have h3 := List.append_cancel_left h2
  injection h3 with hc _
  exact absurd hc (by decide)

/-! ## Equipment-control shape lemmas -/

/-- `setValveMode` on the current mode: publish only, no relay pulse. -/
lemma setValveMode_same (s : PoolState) (m : Int) (hm : m = 1 ∨ m = 2)
    (h : (s.valveMode : Int) = m) :
    setValveMode s m = (s, [Ev.pub TOPIC_VALVE_STATE (valvePayload s.valveMode) true]) := by
  unfold setValveMode publishValveState
  rw [if_neg (not_not_intro hm), if_pos h]

/-- `setValveMode` on a different valid mode: one relay pulse then a publish. -/
lemma setValveMode_diff (s : PoolState) (m : Int) (hm : m = 1 ∨ m = 2)
    (h : (s.valveMode : Int) ≠ m) :
    setValveMode s m = ({ s with valveMode := m.toNat },
      [Ev.valveRelayWrite (decide (m = 2)),
       Ev.pub TOPIC_VALVE_STATE (valvePayload m.toNat) true]) := by
  unfold setValveMode setValveRelay publishValveState
  rw [if_neg (not_not_intro hm), if_neg h, if_neg (not_not_intro hm)]
  rfl

/-- `setPumpState` unfolded. -/
lemma setPumpState_eq (s : PoolState) (b : Bool) :
    setPumpState s b = ({ s with pumpState := b },
      [Ev.pumpRelayWrite b, Ev.pub TOPIC_PUMP_STATE (if b then "ON" else "OFF") true]) := by
  rfl

/-- `stopTimer` on an active timer. -/
lemma stopTimer_active (s : PoolState) (h : s.timerActive = true) :
    stopTimer s = ({ s with timerActive := false, timerRemaining := 0, pumpState := false },
      [Ev.pumpRelayWrite false, Ev.pub TOPIC_PUMP_STATE "OFF" true,
       Ev.pub TOPIC_TIMER_STATE (timerJson false 0 s.timerMode s.timerDuration) true]) := by
  unfold stopTimer
  rw [h]
  rfl

/-- `updateTimer` on an inactive timer is a no-op. -/
lemma updateTimer_inactive (s : PoolState) (now : Nat) (h : s.timerActive = false) :
    updateTimer s now = (s, []) := by
  simp [updateTimer, h]

/-- `updateTimer` with a positive remaining count and at least one elapsed
second: record the tick time, decrement once, publish per the cadence policy. -/
lemma updateTimer_tick (s : PoolState) (now : Nat) (h1 : s.timerActive = true)
    (h2 : 1 ≤ sub32 now s.timerLastUpdate / 1000) (h3 : 0 < s.timerRemaining) :
    updateTimer s now =
      if (s.timerRemaining - 1) % 10 = 0 ∨ s.timerRemaining - 1 ≤ 10 ∨
          10000 < sub32 now s.lastPublish then
        ({ s with timerRemaining := s.timerRemaining - 1, timerLastUpdate := now,
                  lastPublish := now },
         [Ev.pub TOPIC_TIMER_STATE
            (timerJson true (s.timerRemaining - 1) s.timerMode s.timerDuration) true])
      else
        ({ s with timerRemaining := s.timerRemaining - 1, timerLastUpdate := now }, []) := by
  simp only [updateTimer, publishTimerState, h1, Bool.not_true, Bool.false_eq_true,
    not_false_eq_true, if_false, if_pos h2, if_pos h3, h1]
  rfl

/-- `updateTimer` when remaining is already 0: the expiry path is literally a
`stopTimer` call on the time-stamped state. -/
lemma updateTimer_expire (s : PoolState) (now : Nat) (h1 : s.timerActive = true)
    (h2 : 1 ≤ sub32 now s.timerLastUpdate / 1000) (h3 : s.timerRemaining = 0) :
    updateTimer s now = stopTimer { s with timerLastUpdate := now } := by
  simp only [updateTimer, h1, Bool.not_true, Bool.false_eq_true, not_false_eq_true,
    if_false, if_pos h2, h3]
  simp

/-- `startTimer` with valid arguments: the configured state and the exact
event trace (valve set, settle delay, pump on, initial snapshot). -/
lemma startTimer_run (s : PoolState) (m : Int) (d t0 : Nat)
    (hm : m = 1 ∨ m = 2) (hd : d ≠ 0) :
    startTimer s m d t0 =
      ({ s with pumpState := true, valveMode := m.toNat, timerActive := true,
                timerMode := m.toNat, timerDuration := d, timerRemaining := d,
                timerLastUpdate := t0 },
       (if (s.valveMode : Int) = m then
          [Ev.pub TOPIC_VALVE_STATE (valvePayload m.toNat) true]
        else
          [Ev.valveRelayWrite (decide (m = 2)),
           Ev.pub TOPIC_VALVE_STATE (valvePayload m.toNat) true]) ++
       [Ev.delayMs 500, Ev.pumpRelayWrite true, Ev.pub TOPIC_PUMP_STATE "ON" true,
        Ev.pub TOPIC_TIMER_STATE (timerJson true d m.toNat d) true]) := by
  unfold startTimer
  rw [if_neg (not_not_intro hm), if_neg hd]
  dsimp only
  by_cases he : (s.valveMode : Int) = m
  · have hv : s.valveMode = m.toNat := by omega
    rw [setValveMode_same
      { s with timerActive := true, timerMode := m.toNat, timerDuration := d,
               timerRemaining := d, timerLastUpdate := t0 } m hm he]
    dsimp only
    rw [setPumpState_eq]
    dsimp only
    rw [if_pos he, hv]
    rfl
  · rw [setValveMode_diff
      { s with timerActive := true, timerMode := m.toNat, timerDuration := d,
               timerRemaining := d, timerLastUpdate := t0 } m hm he]
    dsimp only
    rw [setPumpState_eq]
    dsimp only
    rw [if_neg he]
    rfl

lemma termSnapCount_nil (m d : Nat) : termSnapCount m d [] = 0 := rfl

lemma termSnapCount_append (m d : Nat) (l1 l2 : List Ev) :
    termSnapCount m d (l1 ++ l2) = termSnapCount m d l1 + termSnapCount m d l2 :=
  List.countP_append _ l1 l2

lemma termSnapCount_cons_ne (m d : Nat) (e : Ev) (l : List Ev)
    (h : e ≠ Ev.pub TOPIC_TIMER_STATE (timerJson false 0 m d) true) :
    termSnapCount m d (e :: l) = termSnapCount m d l := by
  simp [termSnapCount, List.countP_cons, h]

lemma termSnapCount_cons_self (m d : Nat) (l : List Ev) :
    termSnapCount m d (Ev.pub TOPIC_TIMER_STATE (timerJson false 0 m d) true :: l) =
      termSnapCount m d l + 1 := by
  simp [termSnapCount, List.countP_cons]

/-- A running snapshot is never counted as a stop snapshot. -/
lemma termSnapCount_true_pub (m d : Nat) (t : String) (r m' d' : Nat) (b : Bool)
    (l : List Ev) :
    termSnapCount m d (Ev.pub t (timerJson true r m' d') b :: l) = termSnapCount m d l := by
  apply termSnapCount_cons_ne
  intro hcontra
  injection hcontra with _ h2 _
  exact timerJson_true_ne_false r m' d' 0 m d h2

/-! ## Claim C1 -/

/-- C1: the claim says a timer-set message `\x7b"mode":1,"duration":5\x7d` arriving
while the timer is idle starts the timer and leads to one stop snapshot within
5 simulated seconds. The code instead drops the command: `onMqttMessage`
uppercases the payload and then searches it for the lowercase keys `"mode":`
and `"duration":`, which can never match, so the handler leaves the state
untouched, emits nothing, and five seconds of subsequent ticks publish no
snapshot at all. -/
theorem C1_timer_command_dropped :
    onMqttMessage initState TOPIC_TIMER_SET "\x7b\"mode\":1,\"duration\":5\x7d" 0 =
      (initState, []) ∧
    runTicks initState 0 5 = (initState, []) ∧
    upperStr (trimStr "\x7b\"mode\":1,\"duration\":5\x7d") =
      "\x7b\"MODE\":1,\"DURATION\":5\x7d" ∧
    strIndexOf "\x7b\"MODE\":1,\"DURATION\":5\x7d" "\"mode\":" = -1 := by
  decide

/-! ## Claim C2 -/

/-- While the countdown runs, 1-second ticks decrement remaining one per
second, keep the timer active and the pump untouched, and publish only
running-state snapshots (never a stop snapshot). -/
lemma runTicks_countdown (d t0 : Nat) (hof : t0 + 1000 * (d + 1) < 4294967296)
    (pv : Bool) (vm tm : Nat) (lp0 : Nat) :
    ∀ k, k ≤ d →
      ∃ lp evs,
        runTicks ⟨pv, vm, true, tm, d, d, t0, lp0⟩ t0 k =
          (⟨pv, vm, true, tm, d, d - k, t0 + 1000 * k, lp⟩, evs) ∧
        termSnapCount tm d evs = 0 := by
  intro k
  induction k with
  | zero =>
    intro _
    refine ⟨lp0, [], ?_, rfl⟩
    simp [runTicks]
  | succ k ih =>
    intro hk1
    obtain ⟨lp, evs, heq, hcnt⟩ := ih (Nat.le_of_succ_le hk1)
    have hbound : t0 + 1000 * (k + 1) < 4294967296 := by
      have h1000 : 1000 * (k + 1) ≤ 1000 * (d + 1) := Nat.mul_le_mul_left 1000 (by omega)
      omega
    have hsub : sub32 (t0 + 1000 * (k + 1)) (t0 + 1000 * k) = 1000 := by
      rw [sub32_eq _ _ (by omega) hbound]
      omega
    have h2' : 1 ≤ sub32 (t0 + 1000 * (k + 1)) (t0 + 1000 * k) / 1000 := by
      rw [hsub]
    have h3' : 0 < d - k := by omega
    simp only [runTicks]
    rw [heq]
    dsimp only
    rw [updateTimer_tick ⟨pv, vm, true, tm, d, d - k, t0 + 1000 * k, lp⟩
      (t0 + 1000 * (k + 1)) rfl h2' h3']
    have hrem : d - k - 1 = d - (k + 1) := by omega
    by_cases hpub : (d - k - 1) % 10 = 0 ∨ d - k - 1 ≤ 10 ∨
        10000 < sub32 (t0 + 1000 * (k + 1)) lp
    · rw [if_pos hpub]
      refine ⟨t0 + 1000 * (k + 1),
        evs ++ [Ev.pub TOPIC_TIMER_STATE (timerJson true (d - k - 1) tm d) true], ?_, ?_⟩
      · rw [hrem]
      · rw [termSnapCount_append, hcnt, termSnapCount_true_pub, termSnapCount_nil]
    · rw [if_neg hpub]
      refine ⟨lp, evs, ?_, hcnt⟩
      rw [List.append_nil, hrem]

/-- C2 amended (d+1 ticks instead of d — see the counterexample): starting the
timer and advancing 1-second ticks for d+1 seconds leaves the timer inactive,
the pump off and remaining 0; the combined trace holds exactly one
stop-triggered snapshot (active:false, remaining:0, mode m, duration d); and
the observable end state and that snapshot coincide with the ones produced by
calling `stopTimer` directly after `startTimer`. -/
theorem C2_expiry_stop_convergence (s : PoolState) (m : Int) (d t0 : Nat)
    (hm : m = 1 ∨ m = 2) (hd : 0 < d) (hof : t0 + 1000 * (d + 1) < 4294967296) :
    (runTicks (startTimer s m d t0).1 t0 (d + 1)).1.timerActive = false ∧
    (runTicks (startTimer s m d t0).1 t0 (d + 1)).1.pumpState = false ∧
    (runTicks (startTimer s m d t0).1 t0 (d + 1)).1.timerRemaining = 0 ∧
    termSnapCount m.toNat d
      ((startTimer s m d t0).2 ++ (runTicks (startTimer s m d t0).1 t0 (d + 1)).2) = 1 ∧
    obs (runTicks (startTimer s m d t0).1 t0 (d + 1)).1 =
      obs (stopTimer (startTimer s m d t0).1).1 ∧
    termSnapCount m.toNat d
      ((startTimer s m d t0).2 ++ (stopTimer (startTimer s m d t0).1).2) = 1 := by
  have htgt : ∀ p : String, ∀ b : Bool, ∀ t : String, t ≠ TOPIC_TIMER_STATE →
      Ev.pub t p b ≠ Ev.pub TOPIC_TIMER_STATE (timerJson false 0 m.toNat d) true := by
    intro p b t ht hc
    injection hc with h1 _ _
    exact ht h1
  have hvp : TOPIC_VALVE_STATE ≠ TOPIC_TIMER_STATE := by decide
  have hpp : TOPIC_PUMP_STATE ≠ TOPIC_TIMER_STATE := by decide
  rw [startTimer_run s m d t0 hm (by omega)]
  dsimp only
  have hstart : termSnapCount m.toNat d
      ((if (s.valveMode : Int) = m then
          [Ev.pub TOPIC_VALVE_STATE (valvePayload m.toNat) true]
        else
          [Ev.valveRelayWrite (decide (m = 2)),
           Ev.pub TOPIC_VALVE_STATE (valvePayload m.toNat) true]) ++
       [Ev.delayMs 500, Ev.pumpRelayWrite true, Ev.pub TOPIC_PUMP_STATE "ON" true,
        Ev.pub TOPIC_TIMER_STATE (timerJson true d m.toNat d) true]) = 0 := by
    rw [termSnapCount_append]
    have hsegment : termSnapCount m.toNat d
        [Ev.delayMs 500, Ev.pumpRelayWrite true, Ev.pub TOPIC_PUMP_STATE "ON" true,
         Ev.pub TOPIC_TIMER_STATE (timerJson true d m.toNat d) true] = 0 := by
      rw [termSnapCount_cons_ne _ _ _ _ (fun h => Ev.noConfusion h),
        termSnapCount_cons_ne _ _ _ _ (fun h => Ev.noConfusion h),
        termSnapCount_cons_ne _ _ _ _ (htgt _ _ _ hpp),
        termSnapCount_true_pub, termSnapCount_nil]
    by_cases hcv : (s.valveMode : Int) = m
    · rw [if_pos hcv, termSnapCount_cons_ne _ _ _ _ (htgt _ _ _ hvp), termSnapCount_nil,
        hsegment]
    · rw [if_neg hcv, termSnapCount_cons_ne _ _ _ _ (fun h => Ev.noConfusion h),
        termSnapCount_cons_ne _ _ _ _ (htgt _ _ _ hvp), termSnapCount_nil, hsegment]
  obtain ⟨lp, evs, heq, hcnt⟩ :=
    runTicks_countdown d t0 hof true m.toNat m.toNat s.lastPublish d le_rfl
  simp only [runTicks]
  rw [heq]
  dsimp only
  have hsub2 : sub32 (t0 + 1000 * (d + 1)) (t0 + 1000 * d) = 1000 := by
    rw [sub32_eq _ _ (by omega) (by omega)]
    omega
  have h2f : 1 ≤ sub32 (t0 + 1000 * (d + 1)) (t0 + 1000 * d) / 1000 := by
    rw [hsub2]
  rw [updateTimer_expire ⟨true, m.toNat, true, m.toNat, d, d - d, t0 + 1000 * d, lp⟩
    (t0 + 1000 * (d + 1)) rfl h2f (Nat.sub_self d)]
  dsimp only
  rw [stopTimer_active ⟨true, m.toNat, true, m.toNat, d, d - d, t0 + 1000 * (d + 1), lp⟩ rfl]
  rw [stopTimer_active ⟨true, m.toNat, true, m.toNat, d, d, t0, s.lastPublish⟩ rfl]
  dsimp only
  have hstop : termSnapCount m.toNat d
      [Ev.pumpRelayWrite false, Ev.pub TOPIC_PUMP_STATE "OFF" true,
       Ev.pub TOPIC_TIMER_STATE (timerJson false 0 m.toNat d) true] = 1 := by
    rw [termSnapCount_cons_ne _ _ _ _ (fun h => Ev.noConfusion h),
      termSnapCount_cons_ne _ _ _ _ (htgt _ _ _ hpp),
      termSnapCount_cons_self, termSnapCount_nil]
  refine ⟨rfl, rfl, rfl, ?_, rfl, ?_⟩
  · rw [termSnapCount_append, hstart, termSnapCount_append, hcnt, hstop]
  · rw [termSnapCount_append, hstart, hstop]

/-- C2 counterexample: with m = 1, d = 2, ticks advanced by exactly d = 2
seconds, the timer is still active, the pump still on (remaining is 0 but the
stop happens only on the next tick), and no stop snapshot has been published —
refuting the claim that d seconds of ticks reach the stopped state. -/
theorem C2_counterexample :
    (runTicks (startTimer initState 1 2 0).1 0 2).1.timerActive = true ∧
    (runTicks (startTimer initState 1 2 0).1 0 2).1.pumpState = true ∧
    (runTicks (startTimer initState 1 2 0).1 0 2).1.timerRemaining = 0 ∧
    termSnapCount 1 2
      ((startTimer initState 1 2 0).2 ++ (runTicks (startTimer initState 1 2 0).1 0 2).2) =
      0 := by
  decide

/-- C2 witness: the amended convergence at m = 1, d = 2, t0 = 0. -/
theorem C2_expiry_stop_convergence_witness :
    (runTicks (startTimer initState 1 2 0).1 0 3).1.timerActive = false ∧
    (runTicks (startTimer initState 1 2 0).1 0 3).1.pumpState = false :=
  ⟨(C2_expiry_stop_convergence initState 1 2 0 (Or.inl rfl) (by decide) (by decide)).1,
   (C2_expiry_stop_convergence initState 1 2 0 (Or.inl rfl) (by decide) (by decide)).2.1⟩

/-! ## Claim C3 -/

/-- C3 counterexample: with the timer running (remaining 5) and 3 whole seconds
elapsed, the tick is not a no-op (refuting "no-op unless the timer is in the
Idle phase") and it decrements remaining by exactly 1, not by the 3 elapsed
seconds (refuting "decrements remaining once per elapsed second"). -/
theorem C3_counterexample :
    (updateTimer ⟨true, 1, true, 1, 9, 5, 0, 0⟩ 3000).1 ≠ (⟨true, 1, true, 1, 9, 5, 0, 0⟩ : PoolState) ∧
    (updateTimer ⟨true, 1, true, 1, 9, 5, 0, 0⟩ 3000).1.timerRemaining = 4 := by
  decide

/-- C3 amended: the tick is a no-op unless the timer is Running; when at least
one whole second has elapsed since the last tick it records the tick time and
decrements remaining by exactly one (however many seconds elapsed) while
remaining is positive; when remaining is already 0 it is literally the
`stopTimer` call on the time-stamped state — the single code path that turns
the pump off. -/
theorem C3_tick_behaviour (s : PoolState) (now : Nat) :
    (s.timerActive = false → updateTimer s now = (s, [])) ∧
    (s.timerActive = true → sub32 now s.timerLastUpdate / 1000 = 0 →
      updateTimer s now = (s, [])) ∧
    (s.timerActive = true → 1 ≤ sub32 now s.timerLastUpdate / 1000 →
      0 < s.timerRemaining →
      (updateTimer s now).1.timerRemaining = s.timerRemaining - 1 ∧
      (updateTimer s now).1.timerLastUpdate = now ∧
      (updateTimer s now).1.timerActive = true ∧
      (updateTimer s now).1.pumpState = s.pumpState) ∧
    (s.timerActive = true → 1 ≤ sub32 now s.timerLastUpdate / 1000 →
      s.timerRemaining = 0 →
      updateTimer s now = stopTimer { s with timerLastUpdate := now }) := by
  refine ⟨fun h1 => ?_, fun h1 h2 => ?_, fun h1 h2 h3 => ?_, fun h1 h2 h3 => ?_⟩
  · simp [updateTimer, h1]
  · simp [updateTimer, h1, h2]
  · simp [updateTimer, h1, h2, h3]
    split <;> simp
  · simp only [updateTimer, h1, Bool.not_true, Bool.false_eq_true, not_false_eq_true,
      if_false, if_pos h2, h3]
    simp

/-- C3 witness: the amended tick behaviour at concrete states. -/
theorem C3_tick_behaviour_witness :
    updateTimer ⟨false, 1, false, 1, 0, 0, 0, 0⟩ 5000 = (⟨false, 1, false, 1, 0, 0, 0, 0⟩, []) ∧
    updateTimer ⟨true, 1, true, 1, 5, 0, 5000, 0⟩ 6000 =
      stopTimer { (⟨true, 1, true, 1, 5, 0, 5000, 0⟩ : PoolState) with timerLastUpdate := 6000 } :=
  ⟨(C3_tick_behaviour ⟨false, 1, false, 1, 0, 0, 0, 0⟩ 5000).1 rfl,
   (C3_tick_behaviour ⟨true, 1, true, 1, 5, 0, 5000, 0⟩ 6000).2.2.2 rfl (by decide) rfl⟩

/-! ## Claim C4 -/

lemma char_digit_isDigit (m : Nat) (h : m < 10) : (Char.ofNat (48 + m)).isDigit = true := by
  interval_cases m <;> decide

lemma char_digit_toNat (m : Nat) (h : m < 10) : (Char.ofNat (48 + m)).toNat = 48 + m := by
  interval_cases m <;> decide

lemma digitsToNat_append (l1 l2 : List Char) (h : ∀ c ∈ l1, c.isDigit = true) :
    ∀ acc, digitsToNat acc (l1 ++ l2) = digitsToNat (digitsToNat acc l1) l2 := by
  induction l1 with
  | nil => intro acc; rfl
  | cons c t ih =>
    intro acc
    have hc : c.isDigit = true := h c (List.mem_cons_self c t)
    simp only [List.cons_append, digitsToNat, hc, if_pos]
    exact ih (fun x hx => h x (List.mem_cons_of_mem c hx)) _

lemma natDecimalAux_digits (fuel : Nat) :
    ∀ n, ∀ c ∈ natDecimalAux fuel n, c.isDigit = true := by
  induction fuel with
  | zero => intro n c hc; simp [natDecimalAux] at hc
  | succ fuel ih =>
    intro n c hc
    rw [natDecimalAux] at hc
    by_cases h10 : n < 10
    · rw [if_pos h10] at hc
      simp only [List.mem_singleton] at hc
      subst hc
      exact char_digit_isDigit n h10
    · rw [if_neg h10] at hc
      rcases List.mem_append.mp hc with hc | hc
      · exact ih _ c hc
      · simp only [List.mem_singleton] at hc
        subst hc
        exact char_digit_isDigit (n % 10) (Nat.mod_lt n (by omega))

lemma natDecimalAux_ne_nil (fuel n : Nat) (h : n < fuel) : natDecimalAux fuel n ≠ [] := by
  match fuel with
  | fuel + 1 =>
    rw [natDecimalAux]
    by_cases h10 : n < 10
    · rw [if_pos h10]
      simp
    · rw [if_neg h10]
      simp

lemma digitsToNat_natDecimalAux (fuel : Nat) :
    ∀ n acc, n < fuel →
      digitsToNat acc (natDecimalAux fuel n) =
        acc * 10 ^ (natDecimalAux fuel n).length + n := by
  induction fuel with
  | zero => intro n acc h; omega
  | succ fuel ih =>
    intro n acc h
    rw [natDecimalAux]
    by_cases h10 : n < 10
    · rw [if_pos h10]
      simp only [digitsToNat, char_digit_isDigit n h10, if_pos, char_digit_toNat n h10,
        List.length_singleton, pow_one]
      omega
    · rw [if_neg h10]
      have hdiv : n / 10 < fuel := by
        have h1 : n / 10 < n := Nat.div_lt_self (by omega) (by omega)
        omega
      rw [digitsToNat_append _ _ (natDecimalAux_digits fuel (n / 10)) acc]
      rw [ih (n / 10) acc hdiv]
      have hm : n % 10 < 10 := Nat.mod_lt n (by omega)
      simp only [digitsToNat, char_digit_isDigit _ hm, if_pos, char_digit_toNat _ hm,
        List.length_append, List.length_singleton]
      have hdm := Nat.div_add_mod n 10
      rw [pow_succ]
      ring_nf
      omega

lemma natDecimal_digits (n : Nat) : ∀ c ∈ natDecimal n, c.isDigit = true :=
  natDecimalAux_digits (n + 1) n

lemma natDecimal_ne_nil (n : Nat) : natDecimal n ≠ [] :=
  natDecimalAux_ne_nil (n + 1) n (Nat.lt_succ_self n)

lemma digitsToNat_natDecimal (n : Nat) : digitsToNat 0 (natDecimal n) = n := by
  rw [natDecimal, digitsToNat_natDecimalAux (n + 1) n 0 (Nat.lt_succ_self n)]
  omega

/-- `takeWhile`/`dropWhile` across a boundary where the predicate flips. -/
lemma takeWhile_boundary (p : Char → Bool) (l1 l2 : List Char)
    (h1 : ∀ c ∈ l1, p c = true) (h2 : ∀ c, l2.head? = some c → p c = false) :
    (l1 ++ l2).takeWhile p = l1 ∧ (l1 ++ l2).dropWhile p = l2 := by
  induction l1 with
  | nil =>
    simp only [List.nil_append]
    cases l2 with
    | nil => exact ⟨rfl, rfl⟩
    | cons c t =>
      have hc : p c = false := h2 c rfl
      simp [List.takeWhile, List.dropWhile, hc]
  | cons c t ih =>
    have hc : p c = true := h1 c (List.mem_cons_self c t)
    have iht := ih fun x hx => h1 x (List.mem_cons_of_mem c hx)
    simp [List.takeWhile, List.dropWhile, hc, iht.1, iht.2]

lemma expectChars_exact (p x : List Char) : expectChars p (p ++ x) = some x := by
  unfold expectChars
  have hpre : p.isPrefixOf (p ++ x) = true := by
    rw [List.isPrefixOf_iff_prefix]
    exact List.prefix_append p x
  rw [if_pos hpre, List.drop_left]

lemma parseNatChars_decimal (n : Nat) (tail : List Char)
    (htail : ∀ c, tail.head? = some c → c.isDigit = false) :
    parseNatChars (natDecimal n ++ tail) = some (n, tail) := by
  unfold parseNatChars
  have hb := takeWhile_boundary (fun c => c.isDigit) (natDecimal n) tail
    (natDecimal_digits n) htail
  rw [hb.1, hb.2, if_neg (natDecimal_ne_nil n), digitsToNat_natDecimal]

lemma parseIntChars_decimal (i : Int) (tail : List Char)
    (htail : ∀ c, tail.head? = some c → c.isDigit = false) :
    parseIntChars (intDecimal i ++ tail) = some (i, tail) := by
  unfold intDecimal
  by_cases hneg : i < 0
  · rw [if_pos hneg]
    simp only [List.cons_append, parseIntChars, if_pos]
    rw [parseNatChars_decimal _ _ htail]
    simp only [Option.map_some']
    congr 2
    omega
  · rw [if_neg hneg]
    obtain ⟨c, cs, hcons⟩ : ∃ c cs, natDecimal i.natAbs = c :: cs := by
      cases hnd : natDecimal i.natAbs with
      | nil => exact absurd hnd (natDecimal_ne_nil _)
      | cons c cs => exact ⟨c, cs, rfl⟩
    have hcdig : c.isDigit = true := by
      apply natDecimal_digits i.natAbs
      rw [hcons]
      exact List.mem_cons_self c cs
    have hcne : ¬(c = '-') := by
      intro hcontra
      rw [hcontra] at hcdig
      exact absurd hcdig (by decide)
    rw [hcons]
    simp only [List.cons_append, parseIntChars, if_neg hcne]
    rw [show c :: (cs ++ tail) = (c :: cs) ++ tail from rfl, ← hcons]
    rw [parseNatChars_decimal _ _ htail]
    simp only [Option.map_some']
    congr 2
    omega

lemma parseEntry_roundtrip (n : Net) (rest : List Char)
    (hq : ∀ c ∈ n.ssid.data, c ≠ '"') :
    parseEntry (netEntryChars n ++ rest) = some (n, rest) := by
  obtain ⟨ssid, rssi, op⟩ := n
  unfold parseEntry netEntryChars
  simp only [List.append_assoc]
  rw [expectChars_exact]
  simp only [Option.bind_eq_bind, Option.some_bind]
  have h1 : ∀ c ∈ ssid.data, notQuote c = true := by
    intro c hc
    simp [notQuote, hq c hc]
  have h2 : ∀ c, ("\",\"rssi\":".data ++ (intDecimal rssi ++ (",\"open\":".data ++
      ((if op = true then "true".data else "false".data) ++ ("\x7d".data ++ rest))))).head? =
      some c → notQuote c = false := by
    intro c hc
    rw [show ("\",\"rssi\":".data ++ (intDecimal rssi ++ (",\"open\":".data ++
      ((if op = true then "true".data else "false".data) ++ ("\x7d".data ++ rest))))).head? =
      some '"' from rfl] at hc
    cases hc
    decide
  have hb := takeWhile_boundary notQuote ssid.data _ h1 h2
  rw [hb.1, hb.2]
  rw [expectChars_exact]
  simp only [Option.bind_eq_bind, Option.some_bind]
  rw [parseIntChars_decimal rssi _ ?hc]
  case hc =>
    intro c hc2
    simp only [List.cons_append, List.head?_cons] at hc2
    cases hc2
    decide
  simp only [Option.bind_eq_bind, Option.some_bind]
  rw [expectChars_exact]
  simp only [Option.bind_eq_bind, Option.some_bind]
  cases op <;>
    simp [parseBoolChars, expectChars, Option.bind_eq_bind, Option.some_bind]

/-- The serialized form that follows the first entry: each further entry with
its leading comma, then the closing bracket. -/
def tailSerial : List Net → List Char
  | [] => [']']
  | n :: rest => ',' :: (netEntryChars n ++ tailSerial rest)

lemma joinEntries_tail (l : List Net) (n : Net) :
    joinEntries (n :: l) ++ [']'] = netEntryChars n ++ tailSerial l := by
  induction l generalizing n with
  | nil => rfl
  | cons m t ih =>
    show (netEntryChars n ++ ',' :: joinEntries (m :: t)) ++ [']'] = _
    rw [List.append_assoc, List.cons_append, ih m]
    rfl

lemma tailSerial_length (l : List Net) : l.length + 1 ≤ (tailSerial l).length := by
  induction l with
  | nil => simp [tailSerial]
  | cons n t ih =>
    simp only [tailSerial, List.length_cons, List.length_append]
    omega

lemma parseRest_tail (l : List Net) (hq : ∀ n ∈ l, ∀ c ∈ n.ssid.data, c ≠ '"') :
    ∀ fuel, l.length + 1 ≤ fuel → parseRest fuel (tailSerial l) = some (l, []) := by
  induction l with
  | nil =>
    intro fuel hf
    cases fuel with
    | zero => omega
    | succ fuel => rfl
  | cons n t ih =>
    intro fuel hf
    cases fuel with
    | zero => omega
    | succ fuel =>
      show parseRest (fuel + 1) (',' :: (netEntryChars n ++ tailSerial t)) = _
      simp only [parseRest]
      rw [if_pos trivial]
      rw [parseEntry_roundtrip n _ (hq n (List.mem_cons_self n t))]
      simp only [Option.bind_eq_bind, Option.some_bind]
      rw [ih (fun m hm => hq m (List.mem_cons_of_mem n hm)) fuel (by simpa using hf)]
      rfl

lemma parseNets_serial (l : List Net)
    (hq : ∀ n ∈ l, ∀ c ∈ n.ssid.data, c ≠ '"') :
    parseNets ⟨'[' :: (joinEntries l ++ [']'])⟩ = some l := by
  cases l with
  | nil => rfl
  | cons n t =>
    rw [joinEntries_tail t n]
    have hne : ¬(netEntryChars n ++ tailSerial t = [']']) := by
      intro hcontra
      have h1 := congrArg List.head? hcontra
      rw [show (netEntryChars n ++ tailSerial t).head? = some '\x7b' from rfl] at h1
      simp at h1
    have hfuel : t.length + 1 ≤
        (⟨'[' :: (netEntryChars n ++ tailSerial t)⟩ : String).length := by
      have hl : (⟨'[' :: (netEntryChars n ++ tailSerial t)⟩ : String).length =
          ('[' :: (netEntryChars n ++ tailSerial t)).length := rfl
      rw [hl]
      simp only [List.length_cons, List.length_append]
      have := tailSerial_length t
      omega
    simp only [parseNets]
    rw [if_pos trivial, if_neg hne]
    rw [parseEntry_roundtrip n _ (hq n (List.mem_cons_self n t))]
    simp only [Option.bind_eq_bind, Option.some_bind]
    rw [parseRest_tail t (fun m hm => hq m (List.mem_cons_of_mem n hm)) _ hfuel]
    rfl

lemma joinEntries_snoc (taken : List Net) (n : Net) :
    joinEntries (taken ++ [n]) =
      joinEntries taken ++ ((if 0 < taken.length then [','] else []) ++ netEntryChars n) := by
  induction taken with
  | nil => simp [joinEntries]
  | cons m t ih =>
    cases t with
    | nil => rfl
    | cons m2 t2 =>
      show netEntryChars m ++ ',' :: joinEntries ((m2 :: t2) ++ [n]) = _
      rw [ih]
      simp [joinEntries, List.append_assoc]

/-- The accumulating loop of `scanWiFiNetworks` always extends the serialized
prefix by whole entries of the filtered input, never exceeds the budget by
more than the pending closing bracket, and stops at a prefix. -/
lemma scanLoop_invariant (rest : List Net) :
    ∀ taken : List Net,
      ('[' :: joinEntries taken).length + 1 ≤ 400 →
      ∃ k,
        scanLoop rest ('[' :: joinEntries taken) taken.length =
          ('[' :: joinEntries (taken ++ (rest.filter fun m => m.ssid.length ≠ 0).take k),
           (taken ++ (rest.filter fun m => m.ssid.length ≠ 0).take k).length) ∧
        ('[' :: joinEntries
            (taken ++ (rest.filter fun m => m.ssid.length ≠ 0).take k)).length + 1 ≤ 400 := by
  induction rest with
  | nil =>
    intro taken hb
    exact ⟨0, by simp [scanLoop], by simpa using hb⟩
  | cons n rest ih =>
    intro taken hb
    by_cases hempty : n.ssid.length = 0
    · obtain ⟨k, hk, hbk⟩ := ih taken hb
      have hfilter : ((n :: rest).filter fun m => m.ssid.length ≠ 0) =
          rest.filter fun m => m.ssid.length ≠ 0 := by
        simp [List.filter_cons, hempty]
      refine ⟨k, ?_, ?_⟩
      · rw [show scanLoop (n :: rest) ('[' :: joinEntries taken) taken.length =
            scanLoop rest ('[' :: joinEntries taken) taken.length from by
          simp [scanLoop, hempty]]
        rw [hfilter]
        exact hk
      · rw [hfilter]
        exact hbk
    · have hfilter : ((n :: rest).filter fun m => m.ssid.length ≠ 0) =
          n :: (rest.filter fun m => m.ssid.length ≠ 0) := by
        simp [List.filter_cons, hempty]
      by_cases hproj : 400 < ('[' :: joinEntries taken).length + (netEntryChars n).length +
          (if 0 < taken.length then 1 else 0) + 1
      · refine ⟨0, ?_, ?_⟩
        · rw [show scanLoop (n :: rest) ('[' :: joinEntries taken) taken.length =
              ('[' :: joinEntries taken, taken.length) from by
            simp only [scanLoop, if_neg hempty, if_pos hproj]]
          simp
        · simpa using hb
      · have hsep : ((if 0 < taken.length then [','] else []) : List Char).length =
            (if 0 < taken.length then 1 else 0) := by
          by_cases h0 : 0 < taken.length <;> simp [h0]
        have hnew_json : ('[' :: joinEntries taken) ++
            ((if 0 < taken.length then [','] else []) ++ netEntryChars n) =
            '[' :: joinEntries (taken ++ [n]) := by
          rw [joinEntries_snoc]
          simp [List.append_assoc]
        have hnew_bound : ('[' :: joinEntries (taken ++ [n])).length + 1 ≤ 400 := by
          have hlen := congrArg List.length hnew_json
          rw [List.length_append, List.length_append, hsep] at hlen
          omega
        obtain ⟨k, hk, hbk⟩ := ih (taken ++ [n]) hnew_bound
        have happ : ∀ L : List Net, (taken ++ [n]) ++ L = taken ++ (n :: L) := by
          intro L
          simp
        refine ⟨k + 1, ?_, ?_⟩
        · rw [show scanLoop (n :: rest) ('[' :: joinEntries taken) taken.length =
              scanLoop rest
                (('[' :: joinEntries taken) ++
                  ((if 0 < taken.length then [','] else []) ++ netEntryChars n))
                (taken.length + 1) from by
            simp only [scanLoop, if_neg hempty, if_neg hproj]
            rw [List.append_assoc]]
          rw [hnew_json, show taken.length + 1 = (taken ++ [n]).length from by simp]
          rw [hk, hfilter]
          rw [show ((n :: (rest.filter fun m => m.ssid.length ≠ 0)).take (k + 1)) =
            n :: ((rest.filter fun m => m.ssid.length ≠ 0).take k) from rfl]
          rw [happ]
        · rw [hfilter]
          rw [show ((n :: (rest.filter fun m => m.ssid.length ≠ 0)).take (k + 1)) =
            n :: ((rest.filter fun m => m.ssid.length ≠ 0).take k) from rfl]
          rw [← happ]
          exact hbk

/-- C4 amended (names must be free of the double-quote character, which the
serializer does not escape — see the counterexample): for every network list
whose full serialized form exceeds the 400-byte transport budget, the returned
listing stays within the budget and parses back as a prefix of the
empty-name-filtered input — well-formed, no partially-written entry, all
empty-name entries skipped. -/
theorem C4_scan_truncation (nets : List Net)
    (hq : ∀ n ∈ nets, ∀ c ∈ n.ssid.data, c ≠ '"')
    (hbig : 400 < (fullSerial nets).length) :
    (scanWiFiNetworks nets).length ≤ 400 ∧
    ∃ k, parseNets (scanWiFiNetworks nets) =
      some ((nets.filter fun n => n.ssid.length ≠ 0).take k) := by
  unfold scanWiFiNetworks
  by_cases hnil : nets.length = 0
  · rw [if_pos hnil]
    refine ⟨by decide, 0, ?_⟩
    have : nets = [] := List.length_eq_zero.mp hnil
    subst this
    rfl
  · rw [if_neg hnil]
    obtain ⟨k, hk, hbk⟩ := scanLoop_invariant nets [] (by simp [joinEntries])
    have hk' : scanLoop nets ['['] 0 =
        ('[' :: joinEntries ((nets.filter fun m => m.ssid.length ≠ 0).take k),
         ((nets.filter fun m => m.ssid.length ≠ 0).take k).length) := by
      rw [show (['['] : List Char) = '[' :: joinEntries [] from rfl,
        show (0 : Nat) = List.length ([] : List Net) from rfl]
      simpa using hk
    rw [hk']
    dsimp only
    have hbk' : ('[' :: joinEntries ((nets.filter fun m => m.ssid.length ≠ 0).take k)).length
        + 1 ≤ 400 := by simpa using hbk
    constructor
    · have hlen : (⟨('[' :: joinEntries ((nets.filter fun m => m.ssid.length ≠ 0).take k)) ++
          [']']⟩ : String).length =
          ('[' :: joinEntries ((nets.filter fun m => m.ssid.length ≠ 0).take k)).length + 1 := by
        show (('[' :: joinEntries _) ++ [']']).length = _
        rw [List.length_append]
        rfl
      omega
    · refine ⟨k, ?_⟩
      rw [show ('[' :: joinEntries ((nets.filter fun m => m.ssid.length ≠ 0).take k)) ++ [']'] =
        '[' :: (joinEntries ((nets.filter fun m => m.ssid.length ≠ 0).take k) ++ [']']) from
        rfl]
      apply parseNets_serial
      intro n hn
      have h1 : n ∈ nets.filter fun m => m.ssid.length ≠ 0 := List.take_subset k _ hn
      exact hq n (List.mem_filter.mp h1).1

set_option maxRecDepth 8000

/-- C4 counterexample: a network whose name contains a double quote is copied
into the listing verbatim (the serializer escapes nothing), so for this list —
whose full serialized form exceeds the budget — the returned listing is not
parseable, refuting the claim's "well-formed parseable JSON" for every network
list. -/
theorem C4_counterexample :
    400 < (fullSerial [⟨"A\"B", -50, false⟩,
        ⟨⟨List.replicate 330 'C'⟩, -70, false⟩]).length ∧
    parseNets (scanWiFiNetworks [⟨"A\"B", -50, false⟩,
        ⟨⟨List.replicate 330 'C'⟩, -70, false⟩]) = none := by
  have hclen : (⟨List.replicate 330 'C'⟩ : String).length = 330 := by
    show (List.replicate 330 'C').length = 330
    rw [List.length_replicate]
  have hbig_entry : (netEntryChars ⟨⟨List.replicate 330 'C'⟩, -70, false⟩).length = 365 := by
    simp only [netEntryChars, List.length_append]
    rw [List.length_replicate]
    decide
  have hqe : (netEntryChars ⟨"A\"B", -50, false⟩).length = 38 := by decide
  constructor
  · unfold fullSerial
    have hq_pos : (fun n => decide (n.ssid.length ≠ 0)) (⟨"A\"B", -50, false⟩ : Net) =
        true := by decide
    have hbig_pos : (fun n => decide (n.ssid.length ≠ 0))
        (⟨⟨List.replicate 330 'C'⟩, -70, false⟩ : Net) = true := by
      show decide ((⟨List.replicate 330 'C'⟩ : String).length ≠ 0) = true
      rw [hclen]
      decide
    rw [@List.filter_cons_of_pos Net (fun n => decide (n.ssid.length ≠ 0)) _ _ hq_pos,
      @List.filter_cons_of_pos Net (fun n => decide (n.ssid.length ≠ 0)) _ _ hbig_pos,
      List.filter_nil]
    rw [show joinEntries [⟨"A\"B", -50, false⟩, ⟨⟨List.replicate 330 'C'⟩, -70, false⟩] =
      netEntryChars ⟨"A\"B", -50, false⟩ ++
        ',' :: netEntryChars ⟨⟨List.replicate 330 'C'⟩, -70, false⟩ from rfl]
    simp only [List.length_cons, List.length_append]
    rw [hqe, hbig_entry]
    decide
  · unfold scanWiFiNetworks
    rw [if_neg ?c0]
    simp only [scanLoop]
    rw [if_neg ?c1, if_neg ?c2, if_neg ?c3, if_pos ?c4]
    case c0 => decide
    case c1 => decide
    case c2 => decide
    case c3 => rw [hclen]; decide
    case c4 => rw [hbig_entry]; decide
    decide

/-- C4 witness: a quote-free over-budget list is truncated within budget. -/
theorem C4_scan_truncation_witness :
    (scanWiFiNetworks [⟨⟨List.replicate 395 'B'⟩, -60, true⟩]).length ≤ 400 :=
  (C4_scan_truncation [⟨⟨List.replicate 395 'B'⟩, -60, true⟩]
    (by
      intro n hn c hc
      rw [List.mem_singleton] at hn
      subst hn
      rw [List.eq_of_mem_replicate (show c ∈ List.replicate 395 'B' from hc)]
      decide)
    (by
      have hwlen : (⟨List.replicate 395 'B'⟩ : String).length = 395 := by
        show (List.replicate 395 'B').length = 395
        rw [List.length_replicate]
      have hwentry : (netEntryChars ⟨⟨List.replicate 395 'B'⟩, -60, true⟩).length = 429 := by
        simp only [netEntryChars, List.length_append]
        rw [List.length_replicate]
        decide
      have hw_pos : (fun n => decide (n.ssid.length ≠ 0))
          (⟨⟨List.replicate 395 'B'⟩, -60, true⟩ : Net) = true := by
        show decide ((⟨List.replicate 395 'B'⟩ : String).length ≠ 0) = true
        rw [hwlen]
        decide
      unfold fullSerial
      rw [@List.filter_cons_of_pos Net (fun n => decide (n.ssid.length ≠ 0)) _ _ hw_pos,
        List.filter_nil]
      rw [show joinEntries [⟨⟨List.replicate 395 'B'⟩, -60, true⟩] =
        netEntryChars ⟨⟨List.replicate 395 'B'⟩, -60, true⟩ from rfl]
      simp only [List.length_cons, List.length_append]
      rw [hwentry]
      decide)).1

/-! ## Claim C5 -/

/-- C5 counterexample: for a 33-byte identifier, save-then-load is not the
identity — `loadWiFiCredentials` truncates the stored SSID to 32 bytes. -/
theorem C5_counterexample :
    loadWiFiCredentials
        (saveWiFiCredentials ⟨none, none⟩ ⟨List.replicate 33 'A'⟩ "pw") ≠
      some (⟨List.replicate 33 'A'⟩, "pw") := by
  decide

/-- C5 amended: for every credential pair whose identifier is non-empty and at
most 32 bytes and whose secret is at most 63 bytes, save-then-load returns the
pair; clear-then-load returns none for every prior store state. -/
theorem C5_credential_roundtrip (nv : NVS) (ssid password : String)
    (h1 : ssid.length ≠ 0) (h2 : ssid.length ≤ 32) (h3 : password.length ≤ 63) :
    loadWiFiCredentials (saveWiFiCredentials nv ssid password) = some (ssid, password) ∧
    ∀ nv2 : NVS, loadWiFiCredentials (clearWiFiCredentials nv2) = none := by
  constructor
  · simp only [loadWiFiCredentials, saveWiFiCredentials, prefsGetString, Option.getD_some]
    rw [if_neg h1, strTake_of_le ssid 32 h2, strTake_of_le password 63 h3]
  · intro nv2
    rfl

/-- C5 witness: the round trip at a concrete in-bounds pair. -/
theorem C5_credential_roundtrip_witness :
    loadWiFiCredentials (saveWiFiCredentials ⟨none, none⟩ "Home" "pw") = some ("Home", "pw") :=
  (C5_credential_roundtrip ⟨none, none⟩ "Home" "pw" (by decide) (by decide) (by decide)).1

/-! ## Claim C8 -/

/-- C8: a wifi-clear command makes the handler emit, in this exact order, the
retained disconnected-status publish on the wifi-state topic, then the channel
teardown (`mqtt.disconnect`), then the link teardown and the NVS credential
erasure, then the restart signal — so the disconnected publish strictly
precedes the session teardown, which precedes erasure and restart. -/
theorem C8_wifi_clear_ordering (s : PoolState) (payload : String) (now : Nat) :
    onMqttMessage s TOPIC_WIFI_CLEAR payload now =
      (s, [Ev.pub TOPIC_WIFI_STATE "\x7b\"status\":\"disconnected\"\x7d" true,
           Ev.delayMs 100, Ev.mqttDisconnect, Ev.wifiDisconnectErase, Ev.nvsClear,
           Ev.delayMs 2000, Ev.espRestart]) := by
  have hp : TOPIC_WIFI_CLEAR ≠ TOPIC_PUMP_SET := by decide
  have hv : TOPIC_WIFI_CLEAR ≠ TOPIC_VALVE_SET := by decide
  have ht : TOPIC_WIFI_CLEAR ≠ TOPIC_TIMER_SET := by decide
  simp [onMqttMessage, hp, hv, ht]

/-! ## Claim C9 -/

/-- C9: the load path truncates — a stored identifier comes back as its first
32 bytes and a stored secret as its first 63 bytes; load returns none exactly
when the stored identifier is the empty string; and the BLE provisioning
credential getters apply the same 32/63-byte truncation. -/
theorem C9_load_truncation :
    (∀ nv : NVS, loadWiFiCredentials nv = none ↔ (prefsGetString nv.ssid "").length = 0) ∧
    (∀ nv : NVS, (prefsGetString nv.ssid "").length ≠ 0 →
      loadWiFiCredentials nv =
        some (strTake (prefsGetString nv.ssid "") 32, strTake (prefsGetString nv.password "") 63)) ∧
    (∀ b : BLEState, b.receivedSSID.length ≠ 0 →
      getBLEWiFiSSID b = some (strTake b.receivedSSID 32)) ∧
    (∀ b : BLEState, b.receivedPassword.length ≠ 0 →
      getBLEWiFiPassword b = some (strTake b.receivedPassword 63)) := by
  refine ⟨fun nv => ?_, fun nv h => ?_, fun b h => ?_, fun b h => ?_⟩
  · simp only [loadWiFiCredentials]
    split <;> simp_all
  · unfold loadWiFiCredentials
    rw [if_neg h]
  · unfold getBLEWiFiSSID
    rw [if_neg h]
  · unfold getBLEWiFiPassword
    rw [if_neg h]

/-- C9 witness: truncation observed at a concrete 33-byte stored identifier. -/
theorem C9_load_truncation_witness :
    loadWiFiCredentials ⟨some ⟨List.replicate 33 'A'⟩, some "pw"⟩ =
      some (strTake ⟨List.replicate 33 'A'⟩ 32, strTake "pw" 63) :=
  C9_load_truncation.2.1 ⟨some ⟨List.replicate 33 'A'⟩, some "pw"⟩ (by decide)

/-! ## Claim C6 -/

/-- Valve-state snapshot publishes in a trace. -/
def isValveSnap (e : Ev) : Bool :=
  match e with
  | Ev.pub t _ _ => t == TOPIC_VALVE_STATE
  | _ => false

/-- Physical valve relay writes in a trace. -/
def isValveRelayEv (e : Ev) : Bool :=
  match e with
  | Ev.valveRelayWrite _ => true
  | _ => false

/-- C6: two successive `setValveMode m` calls emit exactly two valve snapshots,
both reporting mode m; they pulse the relay once when the valve starts in the
other mode and not at all when it is already in mode m — so setting the valve
to its current mode is a relay no-op that still re-emits a snapshot. -/
theorem C6_valve_idempotence (s : PoolState) (m : Int) (hm : m = 1 ∨ m = 2) :
    (((setValveMode s m).2 ++ (setValveMode (setValveMode s m).1 m).2).countP isValveSnap = 2) ∧
    (∀ e ∈ (setValveMode s m).2 ++ (setValveMode (setValveMode s m).1 m).2,
      isValveSnap e = true → e = Ev.pub TOPIC_VALVE_STATE (valvePayload m.toNat) true) ∧
    ((s.valveMode : Int) ≠ m →
      ((setValveMode s m).2 ++ (setValveMode (setValveMode s m).1 m).2).countP isValveRelayEv = 1) ∧
    ((s.valveMode : Int) = m →
      ((setValveMode s m).2 ++ (setValveMode (setValveMode s m).1 m).2).countP isValveRelayEv = 0) ∧
    (setValveMode (setValveMode s m).1 m).1.valveMode = m.toNat := by
  by_cases h : (s.valveMode : Int) = m
  · have hv : s.valveMode = m.toNat := by omega
    rw [setValveMode_same s m hm h]
    dsimp only
    rw [setValveMode_same s m hm h]
    refine ⟨by simp [isValveSnap, List.countP_append, List.countP_cons, List.countP_nil],
      ?_, fun hne => absurd h hne,
      fun _ => by simp [isValveRelayEv, List.countP_append, List.countP_cons, List.countP_nil],
      hv⟩
    intro e he _
    simp only [List.cons_append, List.nil_append, List.mem_cons, List.not_mem_nil,
      or_false] at he
    rcases he with rfl | rfl <;> rw [hv]
  · rw [setValveMode_diff s m hm h]
    dsimp only
    have h2 : ((({ s with valveMode := m.toNat } : PoolState)).valveMode : Int) = m := by
      rcases hm with rfl | rfl <;> rfl
    rw [setValveMode_same _ m hm h2]
    dsimp only
    refine ⟨by simp [isValveSnap, isValveRelayEv, List.countP_append, List.countP_cons,
        List.countP_nil], ?_,
      fun _ => by simp [isValveSnap, isValveRelayEv, List.countP_append, List.countP_cons,
        List.countP_nil],
      fun he => absurd he h, rfl⟩
    intro e he hsnap
    simp only [List.cons_append, List.nil_append, List.mem_cons, List.not_mem_nil,
      or_false] at he
    rcases he with rfl | rfl | rfl
    · simp [isValveSnap] at hsnap
    · rfl
    · rfl

/-- C6 witness: both calls at mode 1 from the setup state, which is already in
mode 1 — zero relay pulses, two snapshots. -/
theorem C6_valve_idempotence_witness :
    ((setValveMode initState 1).2 ++ (setValveMode (setValveMode initState 1).1 1).2).countP
      isValveRelayEv = 0 :=
  (C6_valve_idempotence initState 1 (Or.inl rfl)).2.2.2.1 (by decide)

/-! ## Claim C7 -/

/-- C7 counterexample: the claim's "freshly provisioned credentials fail their
single connection attempt" path. With an environment whose first attempt fails
but whose second succeeds, the code does not take the failure path: it retries
(default 3 attempts), connects, and persists the new credentials — the stored
pair changes and BLE provisioning is not restarted, contradicting the
single-attempt reading of the claim. -/
theorem C7_counterexample :
    (fun n => decide (2 ≤ n)) 1 = false ∧
    (bleLoopStep (fun n => decide (2 ≤ n))
        ⟨⟨some "OLD", some "OLDPW"⟩, ⟨true, true, "NET", "PW"⟩, false, false⟩).nvs ≠
      (⟨some "OLD", some "OLDPW"⟩ : NVS) ∧
    (bleLoopStep (fun n => decide (2 ≤ n))
        ⟨⟨some "OLD", some "OLDPW"⟩, ⟨true, true, "NET", "PW"⟩, false, false⟩).ble.bleActive =
      false := by
  decide

/-- C7 amended: `connectWiFi` never touches the credential store, whatever the
attempt outcomes — a subsequent load returns exactly what it did before; and
when freshly provisioned BLE credentials fail their bounded connection attempt
(all 3 retries fail), only the pending in-memory fields are cleared and BLE
provisioning is restarted, with the saved credentials left untouched. -/
theorem C7_no_erasure (attemptOk : Nat → Bool) (retryAttempts : Nat) (s : SysState) :
    ((connectWiFi attemptOk retryAttempts s).2.nvs = s.nvs ∧
      loadWiFiCredentials (connectWiFi attemptOk retryAttempts s).2.nvs =
        loadWiFiCredentials s.nvs) ∧
    (connectWiFiAttempts attemptOk 3 = false → s.ble.bleActive = true →
      hasNewWiFiCredentials s.ble = true → s.ble.receivedSSID.length ≠ 0 →
      s.ble.receivedPassword.length ≠ 0 →
      (bleLoopStep attemptOk s).nvs = s.nvs ∧
      (bleLoopStep attemptOk s).ble.bleActive = true ∧
      (bleLoopStep attemptOk s).ble.newCredentialsReceived = false ∧
      (bleLoopStep attemptOk s).ble.receivedSSID = "" ∧
      (bleLoopStep attemptOk s).ble.receivedPassword = "" ∧
      loadWiFiCredentials (bleLoopStep attemptOk s).nvs = loadWiFiCredentials s.nvs) := by
  constructor
  · unfold connectWiFi
    split <;> simp
  · intro hfail hact hnew hssid hpw
    simp only [bleLoopStep, hact, hnew, hasNewWiFiCredentials, getBLEWiFiSSID,
      getBLEWiFiPassword, if_neg hssid, if_neg hpw, connectWiFi, hfail,
      Bool.false_eq_true, if_false, if_true]
    simp [initBLEProvisioning, clearBLECredentials, stopBLEProvisioning, hact,
      show s.ble.newCredentialsReceived = true from hnew]

/-- C7 witness: all three attempts failing leaves the stored pair loadable. -/
theorem C7_no_erasure_witness :
    (bleLoopStep (fun _ => false)
        ⟨⟨some "OLD", some "OLDPW"⟩, ⟨true, true, "NET", "PW"⟩, false, false⟩).nvs =
      (⟨some "OLD", some "OLDPW"⟩ : NVS) :=
  ((C7_no_erasure (fun _ => false) 3
      ⟨⟨some "OLD", some "OLDPW"⟩, ⟨true, true, "NET", "PW"⟩, false, false⟩).2
    (by decide) rfl rfl (by decide) (by decide)).1

/-! ## Claim C10 -/

/-- Mode fields in range: the invariant of the claim. -/
def modesOK (s : PoolState) : Prop :=
  (s.valveMode = 1 ∨ s.valveMode = 2) ∧ (s.timerMode = 1 ∨ s.timerMode = 2)

lemma modesOK_setPumpState (s : PoolState) (b : Bool) (h : modesOK s) :
    modesOK (setPumpState s b).1 := h

lemma modesOK_setValveMode (s : PoolState) (m : Int) (h : modesOK s) :
    modesOK (setValveMode s m).1 := by
  by_cases hv : m = 1 ∨ m = 2
  · by_cases he : (s.valveMode : Int) = m
    · rw [setValveMode_same s m hv he]
      exact h
    · rw [setValveMode_diff s m hv he]
      refine ⟨?_, h.2⟩
      rcases hv with rfl | rfl
      · exact Or.inl rfl
      · exact Or.inr rfl
  · unfold setValveMode
    rw [if_pos hv]
    exact h

lemma modesOK_startTimer (s : PoolState) (m : Int) (d now : Nat) (h : modesOK s) :
    modesOK (startTimer s m d now).1 := by
  by_cases hv : m = 1 ∨ m = 2
  · by_cases hd : d = 0
    · unfold startTimer
      rw [if_neg (not_not_intro hv), if_pos hd]
      exact h
    · unfold startTimer
      rw [if_neg (not_not_intro hv), if_neg hd]
      dsimp only
      apply modesOK_setPumpState
      apply modesOK_setValveMode
      refine ⟨h.1, ?_⟩
      rcases hv with rfl | rfl
      · exact Or.inl rfl
      · exact Or.inr rfl
  · unfold startTimer
    rw [if_pos hv]
    exact h

lemma modesOK_stopTimer (s : PoolState) (h : modesOK s) : modesOK (stopTimer s).1 := by
  simp only [stopTimer]
  split
  · exact h
  · exact h

lemma modesOK_updateTimer (s : PoolState) (now : Nat) (h : modesOK s) :
    modesOK (updateTimer s now).1 := by
  simp only [updateTimer]
  split_ifs <;> first | exact h | exact modesOK_stopTimer _ h

lemma modesOK_onMqttMessage (s : PoolState) (topic payload : String) (now : Nat)
    (h : modesOK s) : modesOK (onMqttMessage s topic payload now).1 := by
  by_cases h1 : topic = TOPIC_PUMP_SET
  · simp only [onMqttMessage, if_pos h1]
    split_ifs <;> exact h
  by_cases h2 : topic = TOPIC_VALVE_SET
  · simp only [onMqttMessage, if_neg h1, if_pos h2]
    split_ifs <;> first | exact h | exact modesOK_setValveMode _ _ h
  by_cases h3 : topic = TOPIC_TIMER_SET
  · simp only [onMqttMessage, if_neg h1, if_neg h2, if_pos h3]
    rcases hp : parseTimerCommand (upperStr (trimStr payload)) with _ | md
    · simp only [hp]
      exact h
    · simp only [hp]
      split
      · exact modesOK_stopTimer _ h
      · exact modesOK_startTimer _ _ _ _ h
  by_cases h4 : topic = TOPIC_WIFI_CLEAR
  · simp only [onMqttMessage, if_neg h1, if_neg h2, if_neg h3, if_pos h4]
    exact h
  · simp only [onMqttMessage, if_neg h1, if_neg h2, if_neg h3, if_neg h4]
    exact h

/-- C10: in every reachable equipment state both mode fields stay in \x7b1,2\x7d,
the published valve-state payload is exactly "1" or "2", and each operation
that writes a mode field (`setValveRelay`, `setValveMode`, `startTimer`)
rejects an out-of-range argument without changing anything. -/
theorem C10_mode_invariant (s : PoolState) (h : Reachable s) :
    (s.valveMode = 1 ∨ s.valveMode = 2) ∧ (s.timerMode = 1 ∨ s.timerMode = 2) ∧
    (valvePayload s.valveMode = "1" ∨ valvePayload s.valveMode = "2") ∧
    publishValveState s = [Ev.pub TOPIC_VALVE_STATE (valvePayload s.valveMode) true] ∧
    (∀ m : Int, ¬(m = 1 ∨ m = 2) →
      setValveRelay s m = (s, []) ∧ setValveMode s m = (s, []) ∧
      ∀ d now, startTimer s m d now = (s, [])) := by
  have hmode : modesOK s := by
    induction h with
    | init => exact ⟨Or.inl rfl, Or.inl rfl⟩
    | msg s' topic payload now _ ih => exact modesOK_onMqttMessage s' topic payload now ih
    | tick s' now _ ih => exact modesOK_updateTimer s' now ih
  refine ⟨hmode.1, hmode.2, ?_, rfl, ?_⟩
  · rcases hmode.1 with hv | hv <;> rw [hv]
    · exact Or.inl rfl
    · exact Or.inr rfl
  · intro m hbad
    refine ⟨?_, ?_, fun d now => ?_⟩
    · unfold setValveRelay
      rw [if_pos hbad]
    · unfold setValveMode
      rw [if_pos hbad]
    · unfold startTimer
      rw [if_pos hbad]

/-- C10 witness: the invariant at the setup state. -/
theorem C10_mode_invariant_witness :
    valvePayload initState.valveMode = "1" ∨ valvePayload initState.valveMode = "2" :=
  (C10_mode_invariant initState Reachable.init).2.2.1

end PoolCtl
